import Mathlib

/-!
Verification of the maps-info batch job (src/structs.py, src/update.py).

Python records (`dict[str, Any]`) are modelled as association lists with
unique keys; `Record` operations mirror CPython dict semantics on such
lists (lookup of the first binding, in-place replacement on assignment,
removal on deletion).  Fallible Python code (exceptions) is modelled with
`Except Err`.  String primitives used by the source (`str.split`,
`str.replace`, `int(...)`, `str.strip`, `os.path.*`) are modelled by
structurally recursive functions over `List Char` so that every
definition evaluates by kernel reduction.
-/

namespace MapsInfo

/-- Python exception kinds that the modelled code can raise. -/
inductive Err where
  | typeError
  | valueError
  | keyError
  | attrError
  | indexError
  | httpError
deriving DecidableEq

/-- Model of `structs.Mapper`: a dict with the two keys `name` and `id64`,
holding an optional string and an optional integer (`None` = absent). -/
structure Mapper where
  name : Option String
  id64 : Option Int
deriving DecidableEq

/-- A JSON-ish value stored in a map record: `None`, a string, an integer,
or the list of `Mapper` credits produced by normalization. -/
inductive Val where
  | vnone
  | vstr (s : String)
  | vint (n : Int)
  | vmappers (ms : List Mapper)
deriving DecidableEq

/-- One map record: a Python `dict[str, Any]` as an association list. -/
abbrev Record := List (String × Val)

/-- Dict lookup: value of the first binding of the key. -/
def lookupKey : Record → String → Option Val
  | [], _ => none
  | (k', v) :: rest, k => if k' = k then some v else lookupKey rest k

/-- Dict deletion (`del d[k]`): removes the binding of the key.  Dict keys
are unique, so removing every binding of the key agrees with removing
the single one. -/
def delKey : Record → String → Record
  | [], _ => []
  | (k', v) :: rest, k =>
    if k' = k then delKey rest k else (k', v) :: delKey rest k

/-- Dict assignment (`d[k] = v`): replaces the value in place when the key
is present, otherwise appends the new binding at the end (CPython
insertion order). -/
def setKey : Record → String → Val → Record
  | [], k, v => [(k, v)]
  | (k', v') :: rest, k, v =>
    if k' = k then (k, v) :: rest else (k', v') :: setKey rest k v

/-- Python truthiness of a record value. -/
def valTruthy : Val → Bool
  | .vnone => false
  | .vstr s => ¬(s = "")
  | .vint n => ¬(n = 0)
  | .vmappers ms => ¬(ms = [])

/-! ### String primitives (models of the Python builtins used) -/

/-- `s` starts with `p` (model of `str.startswith` on char lists). -/
def leadsWith : List Char → List Char → Bool
  | _, [] => true
  | [], _ :: _ => false
  | c :: cs, p :: ps => c == p && leadsWith cs ps

/-- Index of the first occurrence of `pat` in `s` (model of `str.find`).
`none` when `pat` does not occur (`pat in s` is `(findSub pat s).isSome`). -/
def findSub (pat : List Char) : List Char → Option Nat
  | [] => if leadsWith [] pat then some 0 else none
  | c :: rest =>
    if leadsWith (c :: rest) pat then some 0
    else (findSub pat rest).map (· + 1)

/-- Model of `str.replace(pat, rep, 1)`: replace the first occurrence of
`pat` (if any) by `rep`. -/
def pyReplace1 (s pat rep : String) : String :=
  match findSub pat.data s.data with
  | none => s
  | some i => ⟨s.data.take i ++ rep.data ++ s.data.drop (i + pat.data.length)⟩

/-- Worker for `pySplit`; the fuel always exceeds the remaining input
length, so the fuel-exhausted branch is unreachable. -/
def pySplitAux (sep : List Char) : Nat → List Char → List Char → List (List Char)
  | 0, cs, acc => [acc.reverse ++ cs]
  | fuel + 1, cs, acc =>
    match cs with
    | [] => [acc.reverse]
    | c :: rest =>
      if leadsWith cs sep && !sep.isEmpty then
        acc.reverse :: pySplitAux sep fuel (cs.drop sep.length) []
      else
        pySplitAux sep fuel rest (c :: acc)

/-- Model of Python `str.split(sep)` with a non-empty separator: splits at
each non-overlapping occurrence of `sep`, scanning left to right, without
collapsing empty pieces. -/
def pySplit (s sep : String) : List String :=
  (pySplitAux sep.data (s.data.length + 1) s.data []).map (fun cs => ⟨cs⟩)

/-- CPython's `Py_UNICODE_ISSPACE`, the whitespace class used by
`str.strip()` and by `int()`'s surrounding-whitespace stripping:
0x09-0x0D, 0x1C-0x1F, space, NEL, NBSP and the Unicode space
characters. -/
def pySpace (c : Char) : Bool :=
  let n := c.toNat
  (0x9 ≤ n ∧ n ≤ 0xd) ∨ (0x1c ≤ n ∧ n ≤ 0x1f) ∨ n = 0x20 ∨ n = 0x85 ∨
    n = 0xa0 ∨ n = 0x1680 ∨ (0x2000 ≤ n ∧ n ≤ 0x200a) ∨ n = 0x2028 ∨
    n = 0x2029 ∨ n = 0x202f ∨ n = 0x205f ∨ n = 0x3000

/-- Model of `str.strip()`: drop leading and trailing whitespace. -/
def pyStrip (s : String) : String :=
  ⟨((s.data.dropWhile pySpace).reverse.dropWhile pySpace).reverse⟩

/-- First code points of the decimal-digit (general category Nd) runs of
Unicode 13.0.0, the Unicode version of Python 3.9; each run is ten
consecutive code points valued 0 to 9.  These are the digits
`int()` accepts (CPython maps any Nd digit to its decimal value). -/
def ND_STARTS : List Nat :=
  [0x30, 0x660, 0x6f0, 0x7c0, 0x966, 0x9e6, 0xa66, 0xae6, 0xb66, 0xbe6,
   0xc66, 0xce6, 0xd66, 0xde6, 0xe50, 0xed0, 0xf20, 0x1040, 0x1090, 0x17e0,
   0x1810, 0x1946, 0x19d0, 0x1a80, 0x1a90, 0x1b50, 0x1bb0, 0x1c40, 0x1c50,
   0xa620, 0xa8d0, 0xa900, 0xa9d0, 0xa9f0, 0xaa50, 0xabf0, 0xff10,
   0x104a0, 0x10d30, 0x11066, 0x110f0, 0x11136, 0x111d0, 0x112f0, 0x11450,
   0x114d0, 0x11650, 0x116c0, 0x11730, 0x118e0, 0x11950, 0x11c50, 0x11d50,
   0x11da0, 0x16a60, 0x16b50, 0x1d7ce, 0x1d7d8, 0x1d7e2, 0x1d7ec, 0x1d7f6,
   0x1e140, 0x1e2f0, 0x1e950, 0x1fbf0]

/-- Decimal value of a Unicode decimal digit (Nd), `none` otherwise. -/
def pyDigitVal (c : Char) : Option Nat :=
  ND_STARTS.findSome? (fun s =>
    if s ≤ c.toNat ∧ c.toNat < s + 10 then some (c.toNat - s) else none)

/-- Rest of a PEP 515 digit-part after its first digit: further digits
with single underscores allowed between two digits (`1_0`), never
doubled, leading or trailing. -/
def digitsValAux : Nat → List Char → Option Nat
  | acc, [] => some acc
  | _, ['_'] => none
  | acc, '_' :: c :: rest =>
    match pyDigitVal c with
    | some d => digitsValAux (acc * 10 + d) rest
    | none => none
  | acc, c :: rest =>
    match pyDigitVal c with
    | some d => digitsValAux (acc * 10 + d) rest
    | none => none

/-- Value of a PEP 515 digit-part: a non-empty run of Unicode decimal
digits with single underscores allowed between digits; `none` otherwise. -/
def digitsVal : List Char → Option Nat
  | [] => none
  | c :: rest =>
    match pyDigitVal c with
    | some d => digitsValAux d rest
    | none => none

/-- Model of the builtin `int(s)` on a string (Python 3.9): optional
surrounding whitespace (`Py_UNICODE_ISSPACE`), an optional sign, then a
non-empty digit-part of Unicode decimal digits with PEP 515 underscore
grouping; `none` models the `ValueError` raised otherwise. -/
def pyIntOfString (s : String) : Option Int :=
  match (pyStrip s).data with
  | '+' :: rest => (digitsVal rest).map Int.ofNat
  | '-' :: rest => (digitsVal rest).map (fun n => -(n : Int))
  | cs => (digitsVal cs).map Int.ofNat

/-! ### structs.py -/

/-- `Mapper.__fix_val(s, str)`: `str(s) if s and s != 'null' else None`.
The raw values fed to a `Mapper` are split substrings or `None` padding,
so the raw type is `Option String`; `str` is the identity on strings. -/
def fixValStr : Option String → Option String
  | none => none
  | some t => if t = "" ∨ t = "null" then none else some t

/-- `Mapper.__fix_val(s, int)`: `int(s) if s and s != 'null' else None`;
`int` raises `ValueError` on a non-numeric string. -/
def fixValInt : Option String → Except Err (Option Int)
  | none => .ok none
  | some t =>
    if t = "" ∨ t = "null" then .ok none
    else
      match pyIntOfString t with
      | some n => .ok (some n)
      | none => .error .valueError

/-- `Mapper.__init__(name, id64)`: stores the two fixed values; only the
integer coercion of `id64` can raise. -/
def mapperMk (name id64 : Option String) : Except Err Mapper :=
  match fixValInt id64 with
  | .error e => .error e
  | .ok d => .ok ⟨fixValStr name, d⟩

/-! ### update.py: mapper-credit restructuring -/

/-- The source's key constants. -/
def MAPPER_NAME_KEY : String := "mapper_name"

def MAPPER_ID64_KEY : String := "mapper_steamid64"

def MAPPERS_KEY : String := "mappers"

def STR_SEPARATOR : String := ", "

/-- `_str_to_list`: `None` for a falsy string, otherwise `val.split(sep)`. -/
def str_to_list (val : Option String) (sep : String) : Option (List String) :=
  match val with
  | none => none
  | some s => if s = "" then none else some (pySplit s sep)

/-- `_str_to_list(map_json[key], ', ')` on the raw dict value: duck typing
means a truthy non-string value raises `AttributeError` at `.split`. -/
def splitField : Val → Except Err (Option (List String))
  | .vnone => .ok (str_to_list none STR_SEPARATOR)
  | .vstr s => .ok (str_to_list (some s) STR_SEPARATOR)
  | .vint n => if n = 0 then .ok none else .error .attrError
  | .vmappers ms => if ms = [] then .ok none else .error .attrError

/-- One `if key in map_json:` block of `_fix_mappers`: when the key is
absent the list variable keeps its initial `[]`; when present, the value
is split and the key deleted. -/
def extractField (m : Record) (key : String) : Except Err (Option (List String) × Record) :=
  match lookupKey m key with
  | none => .ok (some [], m)
  | some v =>
    match splitField v with
    | .error e => .error e
    | .ok l => .ok (l, delKey m key)

/-- `_norm_list(values, size)`: truncate to `size` or extend with `None`
padding.  The source's guards for a `None` values argument or a `None`
size return the input unchanged and are represented by the caller always
passing an actual list and size; the `size < 0` guard is kept. -/
def norm_list {α : Type} (values : List (Option α)) (size : Int) : List (Option α) :=
  if size < 0 then values
  else if (values.length : Int) > size then values.take size.toNat
  else values ++ List.replicate (size.toNat - values.length) none

/-- `len(x)` on an optional list: `len(None)` raises `TypeError`. -/
def pyLen {α : Type} : Option (List α) → Except Err Nat
  | none => .error .typeError
  | some l => .ok l.length

/-- `l[i]` with an `IndexError` when out of range. -/
def pyGet {α : Type} (l : List α) (i : Nat) : Except Err α :=
  match l.get? i with
  | some x => .ok x
  | none => .error .indexError

/-- One loop iteration of `_fix_mappers`: `Mapper(mapper_names[i], mapper_id64s[i])`. -/
def mapperRow (names ids : List (Option String)) (i : Nat) : Except Err Mapper :=
  match pyGet names i with
  | .error e => .error e
  | .ok n =>
    match pyGet ids i with
    | .error e => .error e
    | .ok d => mapperMk n d

/-- The `for i in range(length)` loop of `_fix_mappers`, appending one
`Mapper` per index, stopping at the first raised exception. -/
def buildMappers (names ids : List (Option String)) : List Nat → Except Err (List Mapper)
  | [] => .ok []
  | i :: rest =>
    match mapperRow names ids i with
    | .error e => .error e
    | .ok mp =>
      match buildMappers names ids rest with
      | .error e => .error e
      | .ok ms => .ok (mp :: ms)

/-- `_fix_mappers`: split the two delimited fields, delete them, align the
two lists to `max` length with `None` padding, and store the paired
`Mapper` list under `mappers`. -/
def fix_mappers (m : Record) : Except Err Record :=
  if m = [] then .ok m
  else
    match extractField m MAPPER_NAME_KEY with
    | .error e => .error e
    | .ok (names?, m1) =>
      match extractField m1 MAPPER_ID64_KEY with
      | .error e => .error e
      | .ok (ids?, m2) =>
        match pyLen names? with
        | .error e => .error e
        | .ok nlen =>
          match pyLen ids? with
          | .error e => .error e
          | .ok ilen =>
            let length := max nlen ilen
            let names := norm_list ((names?.getD []).map some) (length : Int)
            let ids := norm_list ((ids?.getD []).map some) (length : Int)
            match buildMappers names ids (List.range length) with
            | .error e => .error e
            | .ok ms => .ok (setKey m2 MAPPERS_KEY (.vmappers ms))

/-! ### update.py: URL normalization -/

def URL_KEYS : List String := ["workshop_url"]

/-- The rewrite applied to one URL value:
`url.replace('http://', 'https://', 1).replace('/?', '?', 1)`.
A non-string value raises `AttributeError` at `.replace`. -/
def fixUrlVal : Val → Except Err Val
  | .vstr s => .ok (.vstr (pyReplace1 (pyReplace1 s "http://" "https://") "/?" "?"))
  | _ => .error .attrError

/-- One iteration of the `for key in _URL_KEYS` loop: `map_json[key]`
raises `KeyError` when the key is absent. -/
def urlStep (m : Record) (key : String) : Except Err Record :=
  match lookupKey m key with
  | none => .error .keyError
  | some v =>
    match fixUrlVal v with
    | .error e => .error e
    | .ok v' => .ok (setKey m key v')

def urlSteps : Record → List String → Except Err Record
  | m, [] => .ok m
  | m, k :: ks =>
    match urlStep m k with
    | .error e => .error e
    | .ok m' => urlSteps m' ks

/-- `_fix_urls`: a no-op on a falsy record, otherwise rewrites every
designated URL field in place. -/
def fix_urls (m : Record) : Except Err Record :=
  if m = [] then .ok m else urlSteps m URL_KEYS

/-! ### update.py: integer type coercion -/

def INT_KEYS : List String := ["id", "difficulty"]

/-- The builtin `int(val)` on a record value: identity on integers,
decimal parse of strings (`ValueError` on failure), `TypeError` on
non-coercible values. -/
def pyInt : Val → Except Err Int
  | .vint n => .ok n
  | .vstr s =>
    match pyIntOfString s with
    | some n => .ok n
    | none => .error .valueError
  | .vnone => .error .typeError
  | .vmappers _ => .error .typeError

/-- One iteration of the `for key in _INT_KEYS` loop of `_fix_types`:
`map_json.get(key)` is `None` when absent, a falsy value is skipped, a
truthy value is replaced by its integer conversion. -/
def intStep (m : Record) (key : String) : Except Err Record :=
  match lookupKey m key with
  | none => .ok m
  | some v =>
    if valTruthy v = false then .ok m
    else
      match pyInt v with
      | .error e => .error e
      | .ok n => .ok (setKey m key (.vint n))

def intSteps : Record → List String → Except Err Record
  | m, [] => .ok m
  | m, k :: ks =>
    match intStep m k with
    | .error e => .error e
    | .ok m' => intSteps m' ks

/-- `_fix_types`: a no-op on a falsy record, otherwise coerces every
truthy designated integer field. -/
def fix_types (m : Record) : Except Err Record :=
  if m = [] then .ok m else intSteps m INT_KEYS

/-! ### update.py: whole-record and whole-collection normalization -/

/-- The body of the `for map_json in maps_json` loop of `_fix_maps`. -/
def fix_map (m : Record) : Except Err Record :=
  match fix_mappers m with
  | .error e => .error e
  | .ok m1 =>
    match fix_urls m1 with
    | .error e => .error e
    | .ok m2 => fix_types m2

def fixMapsGo : List Record → Except Err (List Record)
  | [] => .ok []
  | m :: rest =>
    match fix_map m with
    | .error e => .error e
    | .ok m' =>
      match fixMapsGo rest with
      | .error e => .error e
      | .ok rest' => .ok (m' :: rest')

/-- `_fix_maps`: a no-op on a falsy collection, otherwise normalizes every
record in order (the first raised exception aborts the loop). -/
def fix_maps (ms : List Record) : Except Err (List Record) :=
  if ms = [] then .ok ms else fixMapsGo ms

/-! ### update.py: fetcher -/

/-- An HTTP response (the two observables `_get_url_response` reads). -/
structure Response where
  status_code : Nat
  body : String

/-- `_get_url_response`: short-circuit on a falsy url, issue the request
(the network is the function `net`), `raise_for_status` (an `HTTPError`
for a 4xx/5xx status), treat 204 as no data, otherwise return the
response. -/
def get_url_response (net : String → Response) (url : Option String) :
    Except Err (Option Response) :=
  match url with
  | none => .ok none
  | some u =>
    if u = "" then .ok none
    else
      let r := net u
      if 400 ≤ r.status_code ∧ r.status_code < 600 then .error .httpError
      else if r.status_code = 204 then .ok none
      else .ok (some r)

/-- `_get_url_json`: fetch, propagate "no data", parse the body
(`response.json()`, whose parse failures raise). -/
def get_url_json {α : Type} (net : String → Response)
    (parse : String → Except Err α) (url : Option String) :
    Except Err (Option α) :=
  match get_url_response net url with
  | .error e => .error e
  | .ok none => .ok none
  | .ok (some r) =>
    match parse r.body with
    | .error e => .error e
    | .ok j => .ok (some j)

/-! ### update.py: writer (models of the posixpath primitives) -/

/-- Index of the last occurrence of `c` in `cs` (model of `str.rfind`). -/
def lastIdxOf (cs : List Char) (c : Char) : Option Nat :=
  match cs with
  | [] => none
  | a :: rest =>
    match lastIdxOf rest c with
    | some i => some (i + 1)
    | none => if a == c then some 0 else none

/-- Model of `os.path.basename` (posix): the part after the last slash. -/
def pyBasename (p : String) : String :=
  match lastIdxOf p.data '/' with
  | none => p
  | some i => ⟨p.data.drop (i + 1)⟩

/-- Model of `os.path.dirname` (posix): the part before the last slash,
with trailing slashes stripped unless the head is all slashes. -/
def pyDirname (p : String) : String :=
  match lastIdxOf p.data '/' with
  | none => ""
  | some i =>
    let head := p.data.take (i + 1)
    if head.all (fun c => c == '/') then ⟨head⟩
    else ⟨(head.reverse.dropWhile (fun c => c == '/')).reverse⟩

/-- Model of `os.path.splitext` (posix): split at the last dot of the base
name, unless the base name consists only of leading dots up to it. -/
def pySplitExt (p : String) : String × String :=
  let cs := p.data
  let start := match lastIdxOf cs '/' with | none => 0 | some i => i + 1
  match lastIdxOf cs '.' with
  | none => (p, "")
  | some d =>
    if start ≤ d ∧ ((cs.drop start).take (d - start)).any (fun c => !(c == '.')) then
      (⟨cs.take d⟩, ⟨cs.drop d⟩)
    else (p, "")

/-- Model of `os.path.join` (posix) on two components. -/
def pyJoin (a b : String) : String :=
  if leadsWith b.data ['/'] then b
  else if a = "" ∨ leadsWith a.data.reverse ['/'] then a ++ b
  else a ++ "/" ++ b

/-- The `path or '.'` fallback at the end of `os.path.normpath`. -/
def orDot (s : String) : String :=
  if s = "" then "." else s

/-- Model of `os.path.normpath` (posix): collapse empty and `.`
components, resolve `..` where possible, keep the leading slashes
(doubled only for exactly two), and return `.` for an empty result. -/
def pyNormPath (p : String) : String :=
  if p = "" then "."
  else
    let k : Nat :=
      if leadsWith p.data ['/', '/'] && !leadsWith p.data ['/', '/', '/'] then 2
      else if leadsWith p.data ['/'] then 1
      else 0
    let comps := pySplit p "/"
    let newComps := comps.foldl (fun acc comp =>
      if comp = "" ∨ comp = "." then acc
      else if ¬(comp = "..") ∨ (k = 0 ∧ acc = []) ∨ (¬(acc = []) ∧ acc.getLast? = some "..") then
        acc ++ [comp]
      else if ¬(acc = []) then acc.dropLast
      else acc) []
    orDot ((⟨List.replicate k '/'⟩ : String) ++ String.intercalate "/" newComps)

/-- One file written by `_dump_json`: its path, whether it is the minified
variant, and the serialized value (serialization and the `_unescape`
fix-up are kept abstract: the model records which value was written). -/
structure FSFile (α : Type) where
  path : String
  minified : Bool
  content : α
deriving DecidableEq

/-- Python truthiness of the optional value to serialize, with the
truthiness of the payload type supplied by the caller (duck typing). -/
def optTruthy {α : Type} (tr : α → Bool) : Option α → Bool
  | none => false
  | some o => tr o

/-- `_dump_json`: `False` (and no write) for a `None` path or falsy value;
otherwise normalize the path, derive the base name from the path stem
when no name is supplied (returning `False` if the normalized path is
empty there), and write the pretty and minified files.  `os.makedirs`
only creates directories, and the model's filesystem tracks files, so it
is a no-op here; filesystem errors are outside the model. -/
def dump_json {α : Type} (tr : α → Bool) (file_path file_name : Option String)
    (obj? : Option α) (fs : List (FSFile α)) : Bool × List (FSFile α) :=
  match file_path, obj? with
  | none, _ => (false, fs)
  | some _, none => (false, fs)
  | some fp, some obj =>
    if tr obj = false then (false, fs)
    else
      let fp1 := pyNormPath fp
      if (file_name = none ∨ file_name = some "") ∧ fp1 = "" then (false, fs)
      else
        let dir := if file_name = none ∨ file_name = some "" then pyDirname fp1 else fp1
        let nm := if file_name = none ∨ file_name = some "" then (pySplitExt (pyBasename fp1)).1
                  else file_name.getD ""
        let dumpPath := pyJoin dir nm
        (true, fs ++ [⟨dumpPath ++ ".json", false, obj⟩, ⟨dumpPath ++ ".min.json", true, obj⟩])

/-! ### Spec-side definitions for the alignment claim -/

/-- From the spec's words: the name the i-th credit should carry — the
i-th substring of the original delimited name list put through the
MapperCredit construction rule, or absent when that list is shorter. -/
def specCreditName (names : List String) (i : Nat) : Option String :=
  match names.get? i with
  | none => none
  | some t => if t = "" ∨ t = "null" then none else some t

/-- From the spec's words: the id64 the i-th credit should carry — the
i-th substring of the original delimited id list put through the
MapperCredit construction rule (parsed as an integer), or absent when
that list is shorter. -/
def specCreditId (ids : List String) (i : Nat) : Option Int :=
  match ids.get? i with
  | none => none
  | some t => if t = "" ∨ t = "null" then none else pyIntOfString t

/-! ## Lemmas about the record operations -/

theorem lookup_setKey_self (m : Record) (k : String) (v : Val) :
    lookupKey (setKey m k v) k = some v := by
  induction m with
  | nil => simp [setKey, lookupKey]
  | cons p rest ih =>
    obtain ⟨k', v'⟩ := p
    by_cases h : k' = k
    · simp [setKey, h, lookupKey]
    · simp [setKey, h, lookupKey, ih]

theorem lookup_setKey_ne (m : Record) (k k' : String) (v : Val) (h : ¬(k' = k)) :
    lookupKey (setKey m k v) k' = lookupKey m k' := by
  have h' : ¬(k = k') := fun hh => h hh.symm
  induction m with
  | nil => simp [setKey, lookupKey, h']
  | cons p rest ih =>
    obtain ⟨ka, va⟩ := p
    by_cases hk : ka = k
    · subst hk
      simp [setKey, lookupKey, h']
    · simp [setKey, hk, lookupKey, ih]

theorem lookup_delKey_self (m : Record) (k : String) :
    lookupKey (delKey m k) k = none := by
  induction m with
  | nil => simp [delKey, lookupKey]
  | cons p rest ih =>
    obtain ⟨ka, va⟩ := p
    by_cases hk : ka = k
    · simp [delKey, hk, ih]
    · simp [delKey, hk, lookupKey, ih]

theorem lookup_delKey_ne (m : Record) (k k' : String) (h : ¬(k' = k)) :
    lookupKey (delKey m k) k' = lookupKey m k' := by
  have h' : ¬(k = k') := fun hh => h hh.symm
  induction m with
  | nil => simp [delKey, lookupKey]
  | cons p rest ih =>
    obtain ⟨ka, va⟩ := p
    by_cases hk : ka = k
    · subst hk
      simp [delKey, lookupKey, h', ih]
    · simp [delKey, hk, lookupKey, ih]

theorem setKey_setKey (m : Record) (k : String) (v v' : Val) :
    setKey (setKey m k v) k v' = setKey m k v' := by
  induction m with
  | nil => simp [setKey]
  | cons p rest ih =>
    obtain ⟨ka, va⟩ := p
    by_cases hk : ka = k
    · simp [setKey, hk]
    · simp [setKey, hk, ih]

theorem ne_nil_of_lookup_some (m : Record) (k : String) (v : Val)
    (h : lookupKey m k = some v) : ¬(m = []) := by
  intro hm
  subst hm
  simp [lookupKey] at h

/-! ## Lemmas about list padding and the mapper loop -/

theorem replicate_get? {α : Type} (len i : Nat) (hi : i < len) (a : α) :
    (List.replicate len a).get? i = some a := by
  induction len generalizing i with
  | zero => omega
  | succ len' ih =>
    cases i with
    | zero => simp [List.replicate]
    | succ i' =>
      simp only [List.replicate, List.get?]
      exact ih i' (by omega)

theorem pad_get? {α : Type} (xs : List α) (len i : Nat)
    (hle : xs.length ≤ len) (hi : i < len) :
    (xs.map some ++ List.replicate (len - xs.length) (none : Option α)).get? i
      = some (xs.get? i) := by
  induction xs generalizing len i with
  | nil =>
    simp only [List.map_nil, List.nil_append, List.length_nil, Nat.sub_zero]
    rw [replicate_get? len i hi]
    simp [List.get?]
  | cons x xs ih =>
    cases len with
    | zero => omega
    | succ len' =>
      simp only [List.length_cons] at hle
      cases i with
      | zero => simp
      | succ i' =>
        simp only [List.map_cons, List.cons_append, List.length_cons,
          Nat.succ_sub_succ, List.get?]
        exact ih len' i' (by omega) (by omega)

theorem norm_list_pad {α : Type} (xs : List (Option α)) (len : Nat)
    (h : xs.length ≤ len) :
    norm_list xs (len : Int) = xs ++ List.replicate (len - xs.length) none := by
  unfold norm_list
  rw [if_neg (by omega), if_neg (by omega)]
  rfl

/-! ## Lemmas about field extraction and `_fix_mappers` -/

theorem extractField_absent (m : Record) (k : String) (h : lookupKey m k = none) :
    extractField m k = .ok (some [], m) := by
  simp [extractField, h]

theorem extractField_str (m : Record) (k s : String) (hs : ¬(s = ""))
    (h : lookupKey m k = some (.vstr s)) :
    extractField m k = .ok (some (pySplit s STR_SEPARATOR), delKey m k) := by
  simp [extractField, h, splitField, str_to_list, hs]

theorem extractField_empty_str (m : Record) (k : String)
    (h : lookupKey m k = some (.vstr "")) :
    extractField m k = .ok (none, delKey m k) := by
  simp [extractField, h, splitField, str_to_list]

theorem buildMappers_map (names ids : List (Option String)) (l : List Nat)
    (f : Nat → Mapper) (h : ∀ i ∈ l, mapperRow names ids i = .ok (f i)) :
    buildMappers names ids l = .ok (l.map f) := by
  induction l with
  | nil => rfl
  | cons i rest ih =>
    have hi := h i (by simp)
    have hrest := ih (fun j hj => h j (by simp [hj]))
    simp [buildMappers, hi, hrest]

theorem specCreditName_eq (names : List String) (i : Nat) :
    fixValStr (names.get? i) = specCreditName names i := by
  unfold specCreditName
  cases hc : names.get? i with
  | none => rfl
  | some t => rfl

/-- Evaluation of `_fix_mappers` once both extraction blocks produced
actual lists and every id substring is integer-coercible. -/
theorem fix_mappers_eval (m m1 m2 : Record) (names ids : List String)
    (hm : ¬(m = []))
    (h1 : extractField m MAPPER_NAME_KEY = .ok (some names, m1))
    (h2 : extractField m1 MAPPER_ID64_KEY = .ok (some ids, m2))
    (hparse : ∀ t ∈ ids, t = "" ∨ t = "null" ∨ (pyIntOfString t).isSome = true) :
    ∃ ms : List Mapper,
      fix_mappers m = .ok (setKey m2 MAPPERS_KEY (.vmappers ms)) ∧
      ms.length = max names.length ids.length ∧
      ∀ i, i < max names.length ids.length →
        ms.get? i = some ⟨specCreditName names i, specCreditId ids i⟩ := by
  set len := max names.length ids.length with hlen
  have hrow : ∀ i ∈ List.range len,
      mapperRow
        (names.map some ++ List.replicate (len - names.length) none)
        (ids.map some ++ List.replicate (len - ids.length) none) i
        = .ok ⟨specCreditName names i, specCreditId ids i⟩ := by
    intro i hi
    have hi' : i < len := List.mem_range.mp hi
    have hNle : names.length ≤ len := by rw [hlen]; exact Nat.le_max_left _ _
    have hIle : ids.length ≤ len := by rw [hlen]; exact Nat.le_max_right _ _
    have hN := pad_get? names len i hNle hi'
    have hI := pad_get? ids len i hIle hi'
    have hid : fixValInt (ids.get? i) = .ok (specCreditId ids i) := by
      unfold specCreditId
      cases hc : ids.get? i with
      | none => rfl
      | some t =>
        by_cases hz : t = "" ∨ t = "null"
        · simp only [fixValInt, if_pos hz]
        · simp only [fixValInt, if_neg hz]
          rcases hparse t (List.get?_mem hc) with ht | ht | ht
          · exact absurd (Or.inl ht) hz
          · exact absurd (Or.inr ht) hz
          · obtain ⟨n, hn⟩ := Option.isSome_iff_exists.mp ht
            rw [hn]
    unfold mapperRow pyGet
    rw [hN, hI]
    show (match fixValInt (ids.get? i) with
      | .error e => (.error e : Except Err Mapper)
      | .ok d => .ok ⟨fixValStr (names.get? i), d⟩) = _
    rw [hid, specCreditName_eq]
  have hbuild := buildMappers_map _ _ (List.range len)
    (fun i => ⟨specCreditName names i, specCreditId ids i⟩) hrow
  refine ⟨(List.range len).map (fun i => ⟨specCreditName names i, specCreditId ids i⟩),
    ?_, ?_, ?_⟩
  · have hNle : (names.map some).length ≤ len := by
      rw [List.length_map, hlen]
      exact Nat.le_max_left _ _
    have hIle : (ids.map some).length ≤ len := by
      rw [List.length_map, hlen]
      exact Nat.le_max_right _ _
    simp only [fix_mappers, if_neg hm, h1, h2, pyLen, Option.getD_some, ← hlen]
    rw [norm_list_pad (names.map some) len hNle, norm_list_pad (ids.map some) len hIle]
    simp only [List.length_map]
    rw [hbuild]
  · simp
  · intro i hi
    rw [List.get?_map, List.get?_range hi]
    rfl

/-! ## Claim C1 -/

/-- C1 (amended): for every non-empty record whose delimited mapper
fields, when present, hold non-empty strings — at least one present —
and whose id substrings are each empty, "null", or a decimal integer
literal, `_fix_mappers` succeeds, removes both delimited fields, and
stores a `mappers` list of length `max` of the two substring counts
whose i-th credit carries the i-th substring of each original list put
through the MapperCredit construction rule, or absent when that list is
shorter. -/
theorem fix_mappers_aligned (m : Record) (names ids : List String)
    (hname : (lookupKey m MAPPER_NAME_KEY = none ∧ names = []) ∨
      (∃ s, lookupKey m MAPPER_NAME_KEY = some (.vstr s) ∧ ¬(s = "") ∧
        names = pySplit s STR_SEPARATOR))
    (hid : (lookupKey m MAPPER_ID64_KEY = none ∧ ids = []) ∨
      (∃ s, lookupKey m MAPPER_ID64_KEY = some (.vstr s) ∧ ¬(s = "") ∧
        ids = pySplit s STR_SEPARATOR))
    (hone : ¬(lookupKey m MAPPER_NAME_KEY = none) ∨ ¬(lookupKey m MAPPER_ID64_KEY = none))
    (hparse : ∀ t ∈ ids, t = "" ∨ t = "null" ∨ (pyIntOfString t).isSome = true) :
    ∃ m' ms, fix_mappers m = .ok m' ∧
      lookupKey m' MAPPER_NAME_KEY = none ∧
      lookupKey m' MAPPER_ID64_KEY = none ∧
      lookupKey m' MAPPERS_KEY = some (.vmappers ms) ∧
      ms.length = max names.length ids.length ∧
      (∀ i, i < max names.length ids.length →
        ms.get? i = some ⟨specCreditName names i, specCreditId ids i⟩) := by
  rcases hname with ⟨hn, hns⟩ | ⟨s, hn, hs, hns⟩
  · rcases hid with ⟨hd, hds⟩ | ⟨u, hd, hu, hds⟩
    · rcases hone with hone | hone
      · exact absurd hn hone
      · exact absurd hd hone
    · subst hns
      subst hds
      have hm := ne_nil_of_lookup_some m _ _ hd
      have h1 := extractField_absent m MAPPER_NAME_KEY hn
      have h2 := extractField_str m MAPPER_ID64_KEY u hu hd
      obtain ⟨ms, hms, hlen, helem⟩ :=
        fix_mappers_eval m m (delKey m MAPPER_ID64_KEY) [] (pySplit u STR_SEPARATOR)
          hm h1 h2 hparse
      refine ⟨_, ms, hms, ?_, ?_, lookup_setKey_self _ _ _, hlen, helem⟩
      · rw [lookup_setKey_ne _ _ _ _ (by decide), lookup_delKey_ne _ _ _ (by decide)]
        exact hn
      · rw [lookup_setKey_ne _ _ _ _ (by decide)]
        exact lookup_delKey_self m MAPPER_ID64_KEY
  · subst hns
    have hm := ne_nil_of_lookup_some m _ _ hn
    have h1 := extractField_str m MAPPER_NAME_KEY s hs hn
    rcases hid with ⟨hd, hds⟩ | ⟨u, hd, hu, hds⟩
    · subst hds
      have h2 := extractField_absent (delKey m MAPPER_NAME_KEY) MAPPER_ID64_KEY
        (by rw [lookup_delKey_ne _ _ _ (by decide)]; exact hd)
      obtain ⟨ms, hms, hlen, helem⟩ :=
        fix_mappers_eval m (delKey m MAPPER_NAME_KEY) (delKey m MAPPER_NAME_KEY)
          (pySplit s STR_SEPARATOR) [] hm h1 h2 hparse
      refine ⟨_, ms, hms, ?_, ?_, lookup_setKey_self _ _ _, hlen, helem⟩
      · rw [lookup_setKey_ne _ _ _ _ (by decide)]
        exact lookup_delKey_self m MAPPER_NAME_KEY
      · rw [lookup_setKey_ne _ _ _ _ (by decide), lookup_delKey_ne _ _ _ (by decide)]
        exact hd
    · subst hds
      have h2 := extractField_str (delKey m MAPPER_NAME_KEY) MAPPER_ID64_KEY u hu
        (by rw [lookup_delKey_ne _ _ _ (by decide)]; exact hd)
      obtain ⟨ms, hms, hlen, helem⟩ :=
        fix_mappers_eval m (delKey m MAPPER_NAME_KEY)
          (delKey (delKey m MAPPER_NAME_KEY) MAPPER_ID64_KEY)
          (pySplit s STR_SEPARATOR) (pySplit u STR_SEPARATOR) hm h1 h2 hparse
      refine ⟨_, ms, hms, ?_, ?_, lookup_setKey_self _ _ _, hlen, helem⟩
      · rw [lookup_setKey_ne _ _ _ _ (by decide), lookup_delKey_ne _ _ _ (by decide)]
        exact lookup_delKey_self m MAPPER_NAME_KEY
      · rw [lookup_setKey_ne _ _ _ _ (by decide)]
        exact lookup_delKey_self _ MAPPER_ID64_KEY

/-- C1 counterexample to the claim as stated: the record below is
non-empty and has a present, non-empty `mapper_name`, yet `_fix_mappers`
raises (`mapper_steamid64` is present but empty, `_str_to_list` returns
`None` for it, and `len(None)` is a `TypeError`), so no normalized record
exists. -/
theorem fix_mappers_aligned_cex :
    fix_mappers [(MAPPER_NAME_KEY, Val.vstr "Alice"), (MAPPER_ID64_KEY, Val.vstr "")]
        = .error .typeError ∧
    ¬([(MAPPER_NAME_KEY, Val.vstr "Alice"), (MAPPER_ID64_KEY, Val.vstr "")] = ([] : Record)) ∧
    lookupKey [(MAPPER_NAME_KEY, Val.vstr "Alice"), (MAPPER_ID64_KEY, Val.vstr "")]
        MAPPER_NAME_KEY = some (.vstr "Alice") ∧
    ¬(("Alice" : String) = "") :=
  ⟨rfl, by decide, rfl, by decide⟩

/-- C1 witness: the amended theorem applied to a concrete record with two
names and one id. -/
theorem fix_mappers_aligned_witness :
    ∃ m' ms,
      fix_mappers [(MAPPER_NAME_KEY, Val.vstr "Alice, Bob"),
          (MAPPER_ID64_KEY, Val.vstr "76561198000000001")] = .ok m' ∧
      lookupKey m' MAPPER_NAME_KEY = none ∧
      lookupKey m' MAPPER_ID64_KEY = none ∧
      lookupKey m' MAPPERS_KEY = some (.vmappers ms) ∧
      ms.length = max (pySplit "Alice, Bob" STR_SEPARATOR).length
        (pySplit "76561198000000001" STR_SEPARATOR).length ∧
      (∀ i, i < max (pySplit "Alice, Bob" STR_SEPARATOR).length
          (pySplit "76561198000000001" STR_SEPARATOR).length →
        ms.get? i = some ⟨specCreditName (pySplit "Alice, Bob" STR_SEPARATOR) i,
          specCreditId (pySplit "76561198000000001" STR_SEPARATOR) i⟩) :=
  fix_mappers_aligned _ (pySplit "Alice, Bob" STR_SEPARATOR)
    (pySplit "76561198000000001" STR_SEPARATOR)
    (Or.inr ⟨"Alice, Bob", rfl, by decide, rfl⟩)
    (Or.inr ⟨"76561198000000001", rfl, by decide, rfl⟩)
    (Or.inl (by decide))
    (by decide)

/-! ## Claim C3 -/

/-- C3 (amended): on a non-empty record containing neither delimited
mapper field, `_fix_mappers` adds a `mappers` key bound to the empty
list (it does not leave the record without a `mappers` key). -/
theorem fix_mappers_no_fields (m : Record) (hm : ¬(m = []))
    (h1 : lookupKey m MAPPER_NAME_KEY = none)
    (h2 : lookupKey m MAPPER_ID64_KEY = none) :
    fix_mappers m = .ok (setKey m MAPPERS_KEY (.vmappers [])) := by
  simp only [fix_mappers, if_neg hm, extractField_absent m MAPPER_NAME_KEY h1,
    extractField_absent m MAPPER_ID64_KEY h2, pyLen]
  rfl

/-- C3 counterexample to the claim as stated: on a non-empty record with
neither delimited field, `_fix_mappers` does add a `mappers` key (bound
to the empty list). -/
theorem fix_mappers_no_fields_cex :
    (∃ m', fix_mappers [("name", Val.vstr "x")] = .ok m' ∧
      ¬(lookupKey m' MAPPERS_KEY = none)) ∧
    lookupKey [("name", Val.vstr "x")] MAPPER_NAME_KEY = none ∧
    lookupKey [("name", Val.vstr "x")] MAPPER_ID64_KEY = none :=
  ⟨⟨[("name", Val.vstr "x"), (MAPPERS_KEY, Val.vmappers [])], rfl, by decide⟩, rfl, rfl⟩

/-- C3 witness: the amended theorem at a concrete one-field record. -/
theorem fix_mappers_no_fields_witness :
    fix_mappers [("name", Val.vstr "x")]
      = .ok (setKey [("name", Val.vstr "x")] MAPPERS_KEY (.vmappers [])) :=
  fix_mappers_no_fields _ (by decide) rfl rfl

/-! ## Claim C10 -/

/-- C10: on a non-empty record where `mapper_name` or `mapper_steamid64`
is present but bound to the empty string, `_fix_mappers` raises instead
of treating the field as an empty sequence (`_str_to_list` gives `None`
and `len(None)` fails), so normalization is not total on
present-but-empty delimited fields. -/
theorem fix_mappers_empty_field_raises (m : Record) (hm : ¬(m = []))
    (h : lookupKey m MAPPER_NAME_KEY = some (.vstr "") ∨
      lookupKey m MAPPER_ID64_KEY = some (.vstr "")) :
    ∃ e, fix_mappers m = .error e := by
  rcases h with h | h
  · have h1 := extractField_empty_str m MAPPER_NAME_KEY h
    cases h2 : extractField (delKey m MAPPER_NAME_KEY) MAPPER_ID64_KEY with
    | error e => exact ⟨e, by simp only [fix_mappers, if_neg hm, h1, h2]⟩
    | ok p =>
      obtain ⟨ids?, m2⟩ := p
      exact ⟨.typeError, by simp only [fix_mappers, if_neg hm, h1, h2, pyLen]⟩
  · cases h1 : extractField m MAPPER_NAME_KEY with
    | error e => exact ⟨e, by simp only [fix_mappers, if_neg hm, h1]⟩
    | ok p =>
      obtain ⟨names?, m1⟩ := p
      have hl : lookupKey m1 MAPPER_ID64_KEY = some (.vstr "") := by
        rcases hx : lookupKey m MAPPER_NAME_KEY with _ | v
        · have heq := (extractField_absent m MAPPER_NAME_KEY hx).symm.trans h1
          simp only [Except.ok.injEq, Prod.mk.injEq] at heq
          rw [← heq.2]
          exact h
        · cases hs : splitField v with
          | error e =>
            have hEx : extractField m MAPPER_NAME_KEY = .error e := by
              simp only [extractField, hx, hs]
            rw [hEx] at h1
            exact absurd h1 (by simp)
          | ok l =>
            have hEx : extractField m MAPPER_NAME_KEY = .ok (l, delKey m MAPPER_NAME_KEY) := by
              simp only [extractField, hx, hs]
            have heq := hEx.symm.trans h1
            simp only [Except.ok.injEq, Prod.mk.injEq] at heq
            rw [← heq.2, lookup_delKey_ne _ _ _ (by decide)]
            exact h
      have h2 := extractField_empty_str m1 MAPPER_ID64_KEY hl
      cases names? with
      | none => exact ⟨.typeError, by simp only [fix_mappers, if_neg hm, h1, h2, pyLen]⟩
      | some names =>
        exact ⟨.typeError, by simp only [fix_mappers, if_neg hm, h1, h2, pyLen]⟩

/-- C10 witness: a concrete record whose `mapper_steamid64` is present
but empty makes `_fix_mappers` raise. -/
theorem fix_mappers_empty_field_raises_witness :
    ∃ e, fix_mappers [(MAPPER_NAME_KEY, Val.vstr "x"), (MAPPER_ID64_KEY, Val.vstr "")]
      = .error e :=
  fix_mappers_empty_field_raises _ (by decide) (Or.inr rfl)



/-! ## Claim C2 -/

/-- C2: end-to-end normalization of the spec's example record: the string
id is coerced, the URL scheme and `/?` are rewritten, the delimited
mapper fields are replaced by a two-credit `mappers` list whose second
credit has an absent id64. -/
theorem fix_maps_example :
    fix_maps [[("id", Val.vstr "5"), ("name", Val.vstr "kz_example"),
        (MAPPER_NAME_KEY, Val.vstr "Alice, Bob"),
        (MAPPER_ID64_KEY, Val.vstr "76561198000000001"),
        ("workshop_url", Val.vstr "http://x/?id=5")]]
      = .ok [[("id", Val.vint 5), ("name", Val.vstr "kz_example"),
        ("workshop_url", Val.vstr "https://x?id=5"),
        (MAPPERS_KEY, Val.vmappers
          [⟨some "Alice", some 76561198000000001⟩, ⟨some "Bob", none⟩])]] := rfl

/-! ## Claim C4 -/

theorem pyReplace1_no_occurrence (s pat rep : String)
    (h : findSub pat.data s.data = none) : pyReplace1 s pat rep = s := by
  unfold pyReplace1
  rw [h]

theorem setKey_ne_nil (m : Record) (k : String) (v : Val) : ¬(setKey m k v = []) := by
  cases m with
  | nil => simp [setKey]
  | cons p rest =>
    obtain ⟨ka, va⟩ := p
    by_cases h : ka = k <;> simp [setKey, h]

/-- C4 counterexample to idempotence as stated: on this record (whose URL
field is a string) a second application of `_fix_urls` rewrites a second
occurrence of `/?`, so twice differs from once. -/
theorem fix_urls_idem_cex :
    fix_urls [("workshop_url", Val.vstr "http://x/?a/?b")]
        = .ok [("workshop_url", Val.vstr "https://x?a/?b")] ∧
    fix_urls [("workshop_url", Val.vstr "https://x?a/?b")]
        = .ok [("workshop_url", Val.vstr "https://x?a?b")] ∧
    ¬(([("workshop_url", Val.vstr "https://x?a?b")] : Record)
        = [("workshop_url", Val.vstr "https://x?a/?b")]) :=
  ⟨rfl, rfl, by decide⟩

/-- C4 (amended): `_fix_urls` applied twice equals `_fix_urls` applied
once on every record whose URL field holds a string for which the single
application leaves no occurrence of `http://` or `/?`; only the first
occurrence of each pattern is replaced, so idempotence fails in general
(see the counterexample). -/
theorem fix_urls_cond_idempotent (m : Record) (s : String)
    (hlk : lookupKey m "workshop_url" = some (.vstr s))
    (h1 : findSub "http://".data
      (pyReplace1 (pyReplace1 s "http://" "https://") "/?" "?").data = none)
    (h2 : findSub "/?".data
      (pyReplace1 (pyReplace1 s "http://" "https://") "/?" "?").data = none) :
    (match fix_urls m with
      | .error e => (.error e : Except Err Record)
      | .ok m1 => fix_urls m1) = fix_urls m := by
  set t := pyReplace1 (pyReplace1 s "http://" "https://") "/?" "?" with ht
  have hm : ¬(m = []) := ne_nil_of_lookup_some m _ _ hlk
  have hfx : fix_urls m = .ok (setKey m "workshop_url" (.vstr t)) := by
    simp only [fix_urls, if_neg hm, URL_KEYS, urlSteps, urlStep, hlk, fixUrlVal, ← ht]
  rw [hfx]
  show fix_urls (setKey m "workshop_url" (.vstr t))
    = .ok (setKey m "workshop_url" (.vstr t))
  have hX : ¬(setKey m "workshop_url" (.vstr t) = []) := setKey_ne_nil m _ _
  have hlk2 : lookupKey (setKey m "workshop_url" (.vstr t)) "workshop_url"
      = some (.vstr t) := lookup_setKey_self m _ _
  simp only [fix_urls, if_neg hX, URL_KEYS, urlSteps, urlStep, hlk2, fixUrlVal]
  rw [pyReplace1_no_occurrence _ _ _ h1, pyReplace1_no_occurrence _ _ _ h2,
    setKey_setKey]

/-- C4 witness: the amended theorem at the spec's example URL. -/
theorem fix_urls_cond_idempotent_witness :
    (match fix_urls [("workshop_url", Val.vstr "http://x/?id=5")] with
      | .error e => (.error e : Except Err Record)
      | .ok m1 => fix_urls m1)
      = fix_urls [("workshop_url", Val.vstr "http://x/?id=5")] :=
  fix_urls_cond_idempotent [("workshop_url", Val.vstr "http://x/?id=5")]
    "http://x/?id=5" rfl (by decide) (by decide)

/-! ## Claim C5 -/

theorem fixValStr_eq_none_iff (s : Option String) :
    fixValStr s = none ↔ (s = none ∨ s = some "" ∨ s = some "null") := by
  cases s with
  | none => simp [fixValStr]
  | some t =>
    by_cases h : t = "" ∨ t = "null"
    · rcases h with h | h <;> subst h <;> simp [fixValStr]
    · rw [not_or] at h
      simp [fixValStr, h.1, h.2]

theorem fixValStr_eq_some (t : String) (h1 : ¬(t = "")) (h2 : ¬(t = "null")) :
    fixValStr (some t) = some t := by
  simp [fixValStr, h1, h2]

/-- C5 (amended): a MapperCredit field is absent exactly when the raw
value is falsy (`None`/empty) or the text "null"; every other raw name
is stored as-is, every other raw id64 is stored as its parsed integer
when it parses, and construction raises a fatal conversion error
(`ValueError` from `int`) when it does not parse. -/
theorem mapper_fix_val_spec (name id64 : Option String) :
    (∀ mp, mapperMk name id64 = .ok mp →
      ((mp.name = none ↔ (name = none ∨ name = some "" ∨ name = some "null")) ∧
       (∀ t, name = some t → ¬(t = "") → ¬(t = "null") → mp.name = some t) ∧
       (mp.id64 = none ↔ (id64 = none ∨ id64 = some "" ∨ id64 = some "null")) ∧
       (∀ t n, id64 = some t → ¬(t = "") → ¬(t = "null") → pyIntOfString t = some n →
         mp.id64 = some n))) ∧
    ((∃ t, id64 = some t ∧ ¬(t = "") ∧ ¬(t = "null") ∧ pyIntOfString t = none) ↔
      mapperMk name id64 = .error .valueError) := by
  constructor
  · intro mp hmp
    cases hd : fixValInt id64 with
    | error e =>
      rw [mapperMk, hd] at hmp
      simp at hmp
    | ok d =>
      have hmp' : mp = ⟨fixValStr name, d⟩ := by
        rw [mapperMk, hd] at hmp
        simp only [Except.ok.injEq] at hmp
        exact hmp.symm
      subst hmp'
      refine ⟨fixValStr_eq_none_iff name, ?_, ?_, ?_⟩
      · intro t htn h1 h2
        subst htn
        exact fixValStr_eq_some t h1 h2
      · cases id64 with
        | none =>
          simp only [fixValInt, Except.ok.injEq] at hd
          rw [← hd]
          simp
        | some t =>
          by_cases hz : t = "" ∨ t = "null"
          · simp only [fixValInt, if_pos hz, Except.ok.injEq] at hd
            rw [← hd]
            simp only [true_iff]
            rcases hz with hz | hz <;> subst hz <;> simp
          · cases hp : pyIntOfString t with
            | none =>
              simp only [fixValInt, if_neg hz, hp] at hd
              simp at hd
            | some n =>
              simp only [fixValInt, if_neg hz, hp, Except.ok.injEq] at hd
              rw [← hd]
              simp [hz]
      · intro t n htn h1 h2 hp
        subst htn
        have hz : ¬(t = "" ∨ t = "null") := by
          rintro (hh | hh)
          · exact h1 hh
          · exact h2 hh
        simp only [fixValInt, if_neg hz, hp, Except.ok.injEq] at hd
        exact hd.symm
  · constructor
    · rintro ⟨t, htn, h1, h2, hp⟩
      subst htn
      have hz : ¬(t = "" ∨ t = "null") := by
        rintro (hh | hh)
        · exact h1 hh
        · exact h2 hh
      simp only [mapperMk, fixValInt, if_neg hz, hp]
    · intro hmp
      cases id64 with
      | none => simp [mapperMk, fixValInt] at hmp
      | some t =>
        by_cases hz : t = "" ∨ t = "null"
        · simp [mapperMk, fixValInt, if_pos hz] at hmp
        · cases hp : pyIntOfString t with
          | some n => simp [mapperMk, fixValInt, if_neg hz, hp] at hmp
          | none =>
            exact ⟨t, rfl, fun h => hz (Or.inl h), fun h => hz (Or.inr h), hp⟩

/-- C5 counterexample to the claim as stated: for the truthy, non-"null"
raw id64 "forty" no MapperCredit is constructed at all — `int("forty")`
raises — so no stored field equal to a coerced value exists. -/
theorem mapper_fix_val_cex :
    mapperMk (some "Alice") (some "forty") = .error .valueError ∧
    ¬(("forty" : String) = "") ∧ ¬(("forty" : String) = "null") :=
  ⟨rfl, by decide, by decide⟩

/-- C5 witness: the amended theorem at raw values ("null", "7"). -/
theorem mapper_fix_val_witness :
    (Mapper.mk none (some 7)).name = none :=
  ((mapper_fix_val_spec (some "null") (some "7")).1 ⟨none, some 7⟩ rfl).1.mpr
    (Or.inr (Or.inr rfl))

/-! ## Claim C6 -/

theorem intStep_absent (m : Record) (k : String) (h : lookupKey m k = none) :
    intStep m k = .ok m := by
  simp only [intStep, h]

theorem intStep_falsy (m : Record) (k : String) (v : Val)
    (h : lookupKey m k = some v) (ht : valTruthy v = false) :
    intStep m k = .ok m := by
  simp only [intStep, h, if_pos ht]

theorem intStep_truthy (m : Record) (k : String) (v : Val) (n : Int)
    (h : lookupKey m k = some v) (ht : ¬(valTruthy v = false))
    (hp : pyInt v = .ok n) : intStep m k = .ok (setKey m k (.vint n)) := by
  simp only [intStep, h, if_neg ht, hp]

theorem intStep_err (m : Record) (k : String) (v : Val) (e : Err)
    (h : lookupKey m k = some v) (ht : ¬(valTruthy v = false))
    (hp : pyInt v = .error e) : intStep m k = .error e := by
  simp only [intStep, h, if_neg ht, hp]

theorem intStep_preserve (m : Record) (k k' : String) (h : ¬(k' = k))
    (m' : Record) (hok : intStep m k = .ok m') :
    lookupKey m' k' = lookupKey m k' := by
  cases hlk : lookupKey m k with
  | none =>
    have heq := (intStep_absent m k hlk).symm.trans hok
    simp only [Except.ok.injEq] at heq
    rw [← heq]
  | some v =>
    by_cases ht : valTruthy v = false
    · have heq := (intStep_falsy m k v hlk ht).symm.trans hok
      simp only [Except.ok.injEq] at heq
      rw [← heq]
    · cases hp : pyInt v with
      | error e =>
        have heq := (intStep_err m k v e hlk ht hp).symm.trans hok
        simp at heq
      | ok n =>
        have heq := (intStep_truthy m k v n hlk ht hp).symm.trans hok
        simp only [Except.ok.injEq] at heq
        rw [← heq, lookup_setKey_ne _ _ _ _ h]

theorem intStep_self_spec (m : Record) (k : String) (m' : Record)
    (hok : intStep m k = .ok m') :
    (lookupKey m k = none → lookupKey m' k = none) ∧
    (∀ v, lookupKey m k = some v → valTruthy v = false → lookupKey m' k = some v) ∧
    (∀ v n, lookupKey m k = some v → ¬(valTruthy v = false) → pyInt v = .ok n →
      lookupKey m' k = some (.vint n)) := by
  refine ⟨?_, ?_, ?_⟩
  · intro hlk
    have heq := (intStep_absent m k hlk).symm.trans hok
    simp only [Except.ok.injEq] at heq
    rw [← heq]
    exact hlk
  · intro v hlk ht
    have heq := (intStep_falsy m k v hlk ht).symm.trans hok
    simp only [Except.ok.injEq] at heq
    rw [← heq]
    exact hlk
  · intro v n hlk ht hp
    have heq := (intStep_truthy m k v n hlk ht hp).symm.trans hok
    simp only [Except.ok.injEq] at heq
    rw [← heq]
    exact lookup_setKey_self _ _ _

/-- C6: on a non-empty record, `_fix_types` leaves a designated integer
field (id, difficulty) unchanged when its value is falsy or absent,
replaces a truthy value having an integer conversion with that integer,
and raises a fatal conversion error whenever some designated field holds
a truthy non-numeric string. -/
theorem fix_types_spec (m : Record) (hm : ¬(m = [])) :
    (∀ k ∈ INT_KEYS, ∀ m', fix_types m = .ok m' →
      (lookupKey m k = none → lookupKey m' k = none) ∧
      (∀ v, lookupKey m k = some v → valTruthy v = false → lookupKey m' k = some v) ∧
      (∀ v n, lookupKey m k = some v → ¬(valTruthy v = false) → pyInt v = .ok n →
        lookupKey m' k = some (.vint n))) ∧
    ((∃ k ∈ INT_KEYS, ∃ s, lookupKey m k = some (.vstr s) ∧ ¬(s = "") ∧
        pyIntOfString s = none) → ∃ e, fix_types m = .error e) := by
  have hfx : fix_types m = (match intStep m "id" with
      | .error e => .error e
      | .ok m1 =>
        match intStep m1 "difficulty" with
        | .error e => (.error e : Except Err Record)
        | .ok m2 => .ok m2) := by
    simp only [fix_types, if_neg hm, INT_KEYS, intSteps]
  constructor
  · intro k hk m' hok
    cases hA : intStep m "id" with
    | error e =>
      have hq : fix_types m = .error e := by simp only [hfx, hA]
      rw [hq] at hok
      simp at hok
    | ok m1 =>
      cases hB : intStep m1 "difficulty" with
      | error e =>
        have hq : fix_types m = .error e := by simp only [hfx, hA, hB]
        rw [hq] at hok
        simp at hok
      | ok m2 =>
        have hq : fix_types m = .ok m2 := by simp only [hfx, hA, hB]
        have hm2 := hq.symm.trans hok
        simp only [Except.ok.injEq] at hm2
        subst hm2
        simp only [INT_KEYS, List.mem_cons, List.mem_singleton,
          List.not_mem_nil, or_false] at hk
        rcases hk with hk | hk
        · subst hk
          have hid1 := intStep_self_spec m "id" m1 hA
          have hpres : lookupKey m2 "id" = lookupKey m1 "id" :=
            intStep_preserve m1 "difficulty" "id" (by decide) m2 hB
          refine ⟨?_, ?_, ?_⟩
          · intro hlk
            rw [hpres]
            exact hid1.1 hlk
          · intro v hlk ht
            rw [hpres]
            exact hid1.2.1 v hlk ht
          · intro v n hlk ht hp
            rw [hpres]
            exact hid1.2.2 v n hlk ht hp
        · subst hk
          have hpres1 : lookupKey m1 "difficulty" = lookupKey m "difficulty" :=
            intStep_preserve m "id" "difficulty" (by decide) m1 hA
          have hdif := intStep_self_spec m1 "difficulty" m2 hB
          refine ⟨?_, ?_, ?_⟩
          · intro hlk
            exact hdif.1 (hpres1.trans hlk)
          · intro v hlk ht
            exact hdif.2.1 v (hpres1.trans hlk) ht
          · intro v n hlk ht hp
            exact hdif.2.2 v n (hpres1.trans hlk) ht hp
  · rintro ⟨k, hk, s, hlk, hs, hp⟩
    have htr : ¬(valTruthy (Val.vstr s) = false) := by simp [valTruthy, hs]
    have hpe : pyInt (Val.vstr s) = .error .valueError := by simp only [pyInt, hp]
    simp only [INT_KEYS, List.mem_cons, List.mem_singleton,
      List.not_mem_nil, or_false] at hk
    rcases hk with hk | hk
    · subst hk
      have hA := intStep_err m "id" _ _ hlk htr hpe
      exact ⟨.valueError, by simp only [hfx, hA]⟩
    · subst hk
      cases hA : intStep m "id" with
      | error e => exact ⟨e, by simp only [hfx, hA]⟩
      | ok m1 =>
        have hlk1 : lookupKey m1 "difficulty" = some (.vstr s) := by
          rw [intStep_preserve m "id" "difficulty" (by decide) m1 hA]
          exact hlk
        have hB := intStep_err m1 "difficulty" _ _ hlk1 htr hpe
        exact ⟨.valueError, by simp only [hfx, hA, hB]⟩

/-- C6 witness: a concrete record with a numeric string id and a falsy
difficulty; the id is replaced by its integer conversion. -/
theorem fix_types_spec_witness :
    lookupKey [("id", Val.vint 7), ("difficulty", Val.vnone)] "id"
      = some (.vint 7) :=
  (((fix_types_spec [("id", Val.vstr "7"), ("difficulty", Val.vnone)]
      (by decide)).1 "id" (by decide)
      [("id", Val.vint 7), ("difficulty", Val.vnone)] rfl).2.2)
    (Val.vstr "7") 7 rfl (by decide) rfl

/-! ## Claim C7 -/

/-- C7: `_fix_urls` raises a fatal lookup error (`KeyError`) on every
non-empty record lacking the designated URL field, and is a no-op on the
empty record. -/
theorem fix_urls_missing_key :
    (∀ m : Record, ¬(m = []) → lookupKey m "workshop_url" = none →
      fix_urls m = .error .keyError) ∧
    fix_urls ([] : Record) = .ok [] := by
  constructor
  · intro m hm h
    simp only [fix_urls, if_neg hm, URL_KEYS, urlSteps, urlStep, h]
  · rfl

/-- C7 witness: a concrete non-empty record without `workshop_url`. -/
theorem fix_urls_missing_key_witness :
    fix_urls [("name", Val.vstr "kz_x")] = .error .keyError :=
  fix_urls_missing_key.1 [("name", Val.vstr "kz_x")] (by decide) rfl

/-! ## Claim C8 -/

/-- C8: the fetch returns "no data" exactly for a falsy request target
(with no dependence on the network, i.e. no request issued) and for a
204 response; a 4xx/5xx status (the statuses `raise_for_status` treats
as unsuccessful) raises a fatal error; any other status has its body
parsed and returned. -/
theorem get_url_json_spec {α : Type} (net net' : String → Response)
    (parse : String → Except Err α) (url : Option String) :
    ((url = none ∨ url = some "") →
      get_url_json net parse url = .ok none ∧
      get_url_json net parse url = get_url_json net' parse url) ∧
    (∀ u, url = some u → ¬(u = "") →
      ((net u).status_code = 204 → get_url_json net parse url = .ok none) ∧
      (400 ≤ (net u).status_code → (net u).status_code < 600 →
        get_url_json net parse url = .error .httpError) ∧
      (∀ j, ¬(400 ≤ (net u).status_code ∧ (net u).status_code < 600) →
        ¬((net u).status_code = 204) → parse (net u).body = .ok j →
        get_url_json net parse url = .ok (some j))) ∧
    (get_url_json net parse url = .ok none →
      url = none ∨ url = some "" ∨
        (∃ u, url = some u ∧ (net u).status_code = 204)) := by
  refine ⟨?_, ?_, ?_⟩
  · rintro (h | h) <;> subst h <;> exact ⟨rfl, rfl⟩
  · intro u hu hne
    subst hu
    refine ⟨?_, ?_, ?_⟩
    · intro h204
      simp [get_url_json, get_url_response, hne, h204]
    · intro h4 h6
      have hs : 400 ≤ (net u).status_code ∧ (net u).status_code < 600 := ⟨h4, h6⟩
      simp [get_url_json, get_url_response, hne, hs]
    · intro j hcond h204 hp
      simp [get_url_json, get_url_response, hne, hcond, h204, hp]
  · intro h
    cases url with
    | none => exact Or.inl rfl
    | some u =>
      by_cases hne : u = ""
      · exact Or.inr (Or.inl (by rw [hne]))
      · refine Or.inr (Or.inr ⟨u, rfl, ?_⟩)
        by_contra h204
        by_cases hs : 400 ≤ (net u).status_code ∧ (net u).status_code < 600
        · simp [get_url_json, get_url_response, hne, hs] at h
        · cases hp : parse (net u).body with
          | error e =>
            simp [get_url_json, get_url_response, hne, hs, h204, hp] at h
          | ok j =>
            simp [get_url_json, get_url_response, hne, hs, h204, hp] at h

/-- C8 witness: a 204 response yields "no data". -/
theorem get_url_json_spec_witness :
    get_url_json (fun _ => ⟨204, ""⟩) (fun _ => .ok (0 : Nat)) (some "u")
      = .ok none :=
  ((get_url_json_spec (fun _ => ⟨204, ""⟩) (fun _ => ⟨204, ""⟩)
      (fun _ => .ok (0 : Nat)) (some "u")).2.1 "u" rfl (by decide)).1 rfl

/-! ## Claim C9 -/

theorem orDot_ne_empty (s : String) : ¬(orDot s = "") := by
  unfold orDot
  split
  · simp
  · assumption

theorem pyNormPath_ne_empty (p : String) : ¬(pyNormPath p = "") := by
  unfold pyNormPath
  split
  · simp
  · exact orDot_ne_empty _

/-- C9: `_dump_json` returns the failure signal `False` — writing nothing
and leaving the filesystem unchanged — exactly when the target path is
`None` or the value to serialize is falsy (the "empty path after
normalization" case can never fire, since `os.path.normpath` never
returns an empty string); in every other case it writes the pretty and
the minified file and returns `True`. -/
theorem dump_json_spec {α : Type} (tr : α → Bool) (fp? fn? : Option String)
    (o? : Option α) (fs : List (FSFile α)) :
    ((dump_json tr fp? fn? o? fs).1 = false ↔
      (fp? = none ∨ optTruthy tr o? = false)) ∧
    ((dump_json tr fp? fn? o? fs).1 = false →
      (dump_json tr fp? fn? o? fs).2 = fs) ∧
    (∀ o, o? = some o → (dump_json tr fp? fn? o? fs).1 = true →
      ∃ p, (dump_json tr fp? fn? o? fs).2
        = fs ++ [⟨p ++ ".json", false, o⟩, ⟨p ++ ".min.json", true, o⟩]) := by
  cases fp? with
  | none =>
    refine ⟨by simp [dump_json, optTruthy], by simp [dump_json], ?_⟩
    intro o ho htrue
    simp [dump_json] at htrue
  | some fp =>
    cases o? with
    | none =>
      refine ⟨by simp [dump_json, optTruthy], by simp [dump_json], ?_⟩
      intro o ho htrue
      exact Option.noConfusion ho
    | some o =>
      by_cases ht : tr o = false
      · refine ⟨by simp [dump_json, optTruthy, ht], by simp [dump_json, ht], ?_⟩
        intro o' ho htrue
        simp [dump_json, ht] at htrue
      · have hdead : ¬((fn? = none ∨ fn? = some "") ∧ pyNormPath fp = "") :=
          fun hc => pyNormPath_ne_empty fp hc.2
        refine ⟨?_, ?_, ?_⟩
        · simp [dump_json, optTruthy, ht, hdead]
        · intro hfalse
          exfalso
          simp [dump_json, ht, hdead] at hfalse
        · intro o' ho htrue
          have ho' : o = o' := by
            injection ho
          subst ho'
          refine ⟨pyJoin
            (if fn? = none ∨ fn? = some "" then pyDirname (pyNormPath fp)
              else pyNormPath fp)
            (if fn? = none ∨ fn? = some "" then (pySplitExt (pyBasename (pyNormPath fp))).1
              else fn?.getD ""), ?_⟩
          simp only [dump_json, if_neg ht, if_neg hdead]

/-- C9 witness: a concrete successful write. -/
theorem dump_json_spec_witness :
    (dump_json (fun b => b) (some "out/maps") (some "kz_x") (some true)
      ([] : List (FSFile Bool))).1 = true := by
  cases hb : (dump_json (fun b => b) (some "out/maps") (some "kz_x") (some true)
      ([] : List (FSFile Bool))).1 with
  | true => rfl
  | false =>
    have hd := (dump_json_spec (fun b => b) (some "out/maps") (some "kz_x")
      (some true) ([] : List (FSFile Bool))).1.mp hb
    rcases hd with hd | hd
    · exact Option.noConfusion hd
    · exact absurd hd (by decide)
